import Mathlib

/-!
Shallow embedding of `src/doehyunbaek/devc_to_docker.py`: the capture-and-fold
pipeline that converts a running dev container (with bind mounts) into a
self-contained image.  Pure helpers become Lean functions; the side-effecting
pipeline becomes a function from an environment oracle (`World`, deciding the
outcome of each external operation) to a trace of engine / filesystem events
plus an `Except` outcome.  Paths are modelled after Python `pathlib.PurePosixPath`
as a root flag plus a list of segments (no `..` resolution, as in pathlib).
-/

instance {ε α : Type} [DecidableEq ε] [DecidableEq α] : DecidableEq (Except ε α) := fun x y =>
  match x, y with
  | .error a, .error b => if h : a = b then .isTrue (by rw [h]) else .isFalse (by simp [h])
  | .ok a, .ok b => if h : a = b then .isTrue (by rw [h]) else .isFalse (by simp [h])
  | .error _, .ok _ => .isFalse (by simp)
  | .ok _, .error _ => .isFalse (by simp)

namespace DevcToDocker

/-- Model of `pathlib.PurePosixPath`: an absolute-root flag plus the path
segments (`Path("/a/b").parts[1:]`).  pathlib drops empty and `.` segments
and does not resolve `..`. -/
structure PyPath where
  absolute : Bool
  segments : List String
deriving DecidableEq, Repr

/-- Split a character list on `/` (the pieces, separators dropped). -/
def split_on_slash : List Char → List (List Char)
  | [] => [[]]
  | c :: rest =>
    match split_on_slash rest with
    | [] => [[c]]
    | g :: gs => if c = '/' then [] :: g :: gs else (c :: g) :: gs

/-- Model of `pathlib.Path(s)` on a string: absolute iff it starts with `/`; split on
`/`, dropping empty and single-dot components (pathlib normalisation). -/
def py_path (s : String) : PyPath :=
  { absolute := s.data.head? = some '/'
    segments :=
      ((split_on_slash s.data).map String.mk).filter (fun seg => seg ≠ "" && seg ≠ ".") }

/-- Python truthiness of a `pathlib.Path`: `Path` defines neither `__bool__`
nor `__len__`, so every path object is truthy — including `Path("")`, which
normalises to `Path(".")`. -/
def py_path_truthy (_ : PyPath) : Bool :=
  true

/-- Model of `p / q` for pathlib paths: an absolute right operand replaces the left,
otherwise the segments concatenate. -/
def py_join (p q : PyPath) : PyPath :=
  if q.absolute then q else { absolute := p.absolute, segments := p.segments ++ q.segments }

/-- Model of `Path.parent`: drop the last segment; the root `/` and the lone dot `.`
are their own parents. -/
def py_parent (p : PyPath) : PyPath :=
  { p with segments := p.segments.dropLast }

/-- Model of `Path.as_posix()`: `/`-joined segments, with the root marker in front for
absolute paths; the empty relative path renders as `.`. -/
def as_posix (p : PyPath) : String :=
  if p.absolute then "/" ++ String.intercalate "/" p.segments
  else if p.segments.isEmpty then "." else String.intercalate "/" p.segments

/-- One raw mount descriptor as reported by `docker inspect` (the fields the
code reads: `Type`, `Source`, `Destination`; absent fields default to `""`
via `dict.get`). -/
structure RawMount where
  type : String
  source : String
  destination : String
deriving DecidableEq, Repr

/-- The `BindMount` dataclass: host source and in-container destination. -/
structure BindMount where
  source : PyPath
  destination : PyPath
deriving DecidableEq, Repr

/-- The `CopySpec` dataclass: in-container destination and the staged host path
inside the temp directory. -/
structure CopySpec where
  destination : PyPath
  host_path : PyPath
deriving DecidableEq, Repr

/-- Model of `_extract_bind_mounts`: keep mounts of type `"bind"`, in order.  The
source's `if not source: continue` test is translated faithfully: `source`
is a `Path`, which is always truthy, so the branch is dead and empty-source
mounts are kept. -/
def extract_bind_mounts : List RawMount → List BindMount
  | [] => []
  | m :: rest =>
    if m.type ≠ "bind" then extract_bind_mounts rest
    else
      let source := py_path m.source
      let destination := py_path m.destination
      if ¬ py_path_truthy source then extract_bind_mounts rest
      else { source := source, destination := destination } :: extract_bind_mounts rest

/-- Characters the sanitiser keeps: `[a-zA-Z0-9_.-]`. -/
def allowed_char (c : Char) : Bool :=
  (('a' ≤ c && c ≤ 'z') || ('A' ≤ c && c ≤ 'Z') || ('0' ≤ c && c ≤ '9')
    || c = '_' || c = '.' || c = '-')

/-- Characters trimmed from both ends by `.strip("-.")`. -/
def strip_set (c : Char) : Bool :=
  c = '-' || c = '.'

/-- Python `str.strip(chars)` on a character list: drop members of the set
from both ends. -/
def py_strip_list (l : List Char) : List Char :=
  ((l.dropWhile strip_set).reverse.dropWhile strip_set).reverse

/-- Model of `_sanitize_name`: replace every character outside `[a-zA-Z0-9_.-]` with
`-` (the single-character-class `re.sub` acts per character), strip leading
and trailing `-`/`.`, and fall back to `"container"` when empty. -/
def sanitize_name (name : String) : String :=
  let replaced := name.data.map (fun c => if allowed_char c then c else '-')
  let stripped := py_strip_list replaced
  if stripped.isEmpty then "container" else String.mk stripped

/-- Model of `inspect_info.get("Name", "").lstrip("/") or container_id`: the inspected
name with all leading slashes removed, falling back to the `container_id`
argument when absent or empty. -/
def container_name_of (name : Option String) (container_id : String) : String :=
  let s := String.mk ((name.getD "").data.dropWhile (fun c => c = '/'))
  if s = "" then container_id else s

/-- The `Config` fields the code reads (`dict.get`, so every field may be
absent; Docker reports `Entrypoint`/`Cmd` as JSON arrays or null). -/
structure DockerConfig where
  entrypoint : Option (List String)
  cmd : Option (List String)
  workingDir : Option String
  user : Option String
deriving DecidableEq, Repr

/-- The inspected metadata the pipeline consumes: `Name`, `Mounts`, `Config`. -/
structure InspectInfo where
  name : Option String
  mounts : List RawMount
  config : DockerConfig
deriving DecidableEq, Repr

/-- The keyword arguments of `devc_to_docker`. -/
structure Args where
  output_image : Option String
  intermediate_image : Option String
  keep_temp : Bool
  keep_intermediate : Bool
deriving DecidableEq, Repr

/-- Environment oracle fixing the outcome of each fallible external
operation: host-path existence, `docker commit` (keyed by target tag),
`docker run`, the in-container `rm -rf` / `mkdir -p` execs (keyed by the
path string) and `docker cp` (keyed by the staged host path). -/
structure World where
  source_exists : PyPath → Bool
  commit_ok : String → Bool
  run_ok : Bool
  exec_rm_ok : String → Bool
  exec_mkdir_ok : String → Bool
  cp_ok : PyPath → Bool

/-- Trace events: every side-effecting operation the pipeline issues against
the engine or the filesystem. -/
inductive Event
  | commit (container tag : String) (changes : List String)
  | mkdtemp (dir : PyPath)
  | copy_mount (src target : PyPath)
  | run_container (image name : String)
  | exec_rm (container path : String)
  | warn
  | exec_mkdir (container path : String)
  | cp_in (container : String) (host : PyPath) (parent : String)
  | stop_container (name : String)
  | rm_container (name : String)
  | rm_temp_dir (dir : PyPath)
  | rmi (tag : String)
deriving DecidableEq, Repr

/-- The fatal error taxonomy (`DevcToDockerError` messages, plus
`CalledProcessError` from a required engine call as `engineOpFailed`). -/
inductive PipelineError
  | noBindMounts
  | sourceMissing (source : PyPath)
  | invalidDestination
  | restoreFailed (parent : String)
  | engineOpFailed (op : String)
deriving DecidableEq, Repr

/-- Model of `json.dumps` escaping for one character (quote and backslash; control
characters do not occur in the inputs modelled here). -/
def json_escape_char (c : Char) : List Char :=
  if c = '"' || c = '\\' then ['\\', c] else [c]

/-- Model of `json.dumps` on a list of strings (Python's default `", "` separator). -/
def json_dumps (l : List String) : String :=
  "[" ++ String.intercalate ", "
    (l.map (fun s => "\"" ++ String.mk (s.data.flatMap json_escape_char) ++ "\"")) ++ "]"

/-- Python truthiness of an optional JSON array: present and non-empty. -/
def truthy_list (o : Option (List String)) : Bool :=
  match o with
  | some (_ :: _) => true
  | _ => false

/-- Python truthiness of an optional string: present and non-empty. -/
def truthy_str (o : Option String) : Bool :=
  match o with
  | some s => s ≠ ""
  | none => false

/-- Model of `_build_commit_changes`: entrypoint directive (explicit `[]` when unset
or empty), then cmd directive likewise, then `WORKDIR` only if truthy, then
`USER` only if truthy. -/
def build_commit_changes (config : DockerConfig) : List String :=
  (if truthy_list config.entrypoint then
      ["ENTRYPOINT " ++ json_dumps (config.entrypoint.getD [])]
    else ["ENTRYPOINT []"])
  ++ (if truthy_list config.cmd then
      ["CMD " ++ json_dumps (config.cmd.getD [])]
    else ["CMD []"])
  ++ (if truthy_str config.workingDir then ["WORKDIR " ++ config.workingDir.getD ""] else [])
  ++ (if truthy_str config.user then ["USER " ++ config.user.getD ""] else [])

/-- Model of `_copy_bind_mounts_to_tmp`: for each mount in order, fail with
`sourceMissing` if the host source does not exist; for an absolute
destination whose segment list is empty (destination `/`) fail with
`invalidDestination`; otherwise stage at `temp_dir / relative` (the root
marker stripped from the destination) and record one `CopySpec`.  An error
at a later mount keeps the copy events of the earlier mounts. -/
def copy_bind_mounts_to_tmp (w : World) :
    List BindMount → PyPath → List Event × Except PipelineError (List CopySpec)
  | [], _ => ([], .ok [])
  | m :: rest, temp_dir =>
    if ¬ w.source_exists m.source then ([], .error (.sourceMissing m.source))
    else
      let destination := m.destination
      if destination.absolute && destination.segments.isEmpty then
        ([], .error .invalidDestination)
      else
        let relative : PyPath :=
          if destination.absolute then { absolute := false, segments := destination.segments }
          else destination
        let host_target := py_join temp_dir relative
        match copy_bind_mounts_to_tmp w rest temp_dir with
        | (evs, res) =>
          (Event.copy_mount m.source host_target :: evs,
           res.map (fun copies => { destination := destination, host_path := host_target } :: copies))

/-- Model of `destination.parent if destination.parent != destination else Path("/")`. -/
def restore_parent (destination : PyPath) : PyPath :=
  if py_parent destination ≠ destination then py_parent destination
  else { absolute := true, segments := [] }

/-- Model of `_restore_bind_mounts`: for each `CopySpec` in order, `exec rm -rf` at
the destination (a failure only warns), `exec mkdir -p` at the parent (a
failure is fatal `restoreFailed`), then `docker cp` of the staged host path
to the parent (a failure is a fatal engine error). -/
def restore_bind_mounts (w : World) (temp_container : String) :
    List CopySpec → List Event × Except PipelineError Unit
  | [] => ([], .ok ())
  | spec :: rest =>
    let destination := spec.destination
    let destination_str := as_posix destination
    let parent_str := as_posix (restore_parent destination)
    let rm_events := Event.exec_rm temp_container destination_str ::
        (if w.exec_rm_ok destination_str then [] else [Event.warn])
    if ¬ w.exec_mkdir_ok parent_str then
      (rm_events ++ [Event.exec_mkdir temp_container parent_str], .error (.restoreFailed parent_str))
    else if ¬ w.cp_ok spec.host_path then
      (rm_events ++ [Event.exec_mkdir temp_container parent_str,
        Event.cp_in temp_container spec.host_path parent_str], .error (.engineOpFailed "cp"))
    else
      match restore_bind_mounts w temp_container rest with
      | (evs, res) =>
        (rm_events ++ [Event.exec_mkdir temp_container parent_str,
          Event.cp_in temp_container spec.host_path parent_str] ++ evs, res)

/-- The default final tag `devc_to_docker/<slug>:<timestamp>`. -/
def default_output_image (info : InspectInfo) (container_id timestamp : String) : String :=
  "devc_to_docker/" ++ sanitize_name (container_name_of info.name container_id) ++ ":" ++ timestamp

/-- The final tag after applying the `output_image` argument default. -/
def resolved_output_image (info : InspectInfo) (a : Args) (container_id timestamp : String) : String :=
  a.output_image.getD (default_output_image info container_id timestamp)

/-- The intermediate tag after its default (`<final-tag>-stage`). -/
def resolved_intermediate_image (info : InspectInfo) (a : Args) (container_id timestamp : String) : String :=
  a.intermediate_image.getD (resolved_output_image info a container_id timestamp ++ "-stage")

/-- The disposable container's name, truncated to 60 characters. -/
def temp_container_name (info : InspectInfo) (container_id timestamp : String) : String :=
  let name := "devc-to-docker-" ++ sanitize_name (container_name_of info.name container_id)
      ++ "-" ++ timestamp
  if name.length > 60 then String.mk (name.data.take 60) else name

/-- The `DevcToDockerResult` dataclass. -/
structure DevcToDockerResult where
  container_id : String
  final_image : String
  intermediate_image : String
  temp_dir : PyPath
  copied_mounts : List CopySpec
deriving DecidableEq, Repr

/-- The body of the `try` block: restore the staged mounts into the
disposable container, build the commit-change directives from the original
config, and commit the disposable container to the final tag. -/
def restore_and_commit (w : World) (temp_container : String) (copies : List CopySpec)
    (config : DockerConfig) (output_image : String) : List Event × Except PipelineError Unit :=
  match restore_bind_mounts w temp_container copies with
  | (evs, .error e) => (evs, .error e)
  | (evs, .ok _) =>
    let changes := build_commit_changes config
    if ¬ w.commit_ok output_image then
      (evs ++ [Event.commit temp_container output_image changes], .error (.engineOpFailed "commit"))
    else
      (evs ++ [Event.commit temp_container output_image changes], .ok ())

/-- Model of `devc_to_docker`, from the point where inspection has succeeded (the
inspected metadata, the UTC timestamp and the `mkdtemp` result are inputs).
The `finally` block (stop and remove the disposable container, remove the
temp directory unless `keep_temp`) wraps only the restore / translate /
final-commit phase, exactly as in the source; the `rmi` of the intermediate
image runs after it, only when the `try` body succeeded and
`keep_intermediate` is false. -/
def devc_to_docker (w : World) (container_id : String) (info : InspectInfo) (a : Args)
    (timestamp : String) (temp_dir : PyPath) :
    List Event × Except PipelineError DevcToDockerResult :=
  let output_image := resolved_output_image info a container_id timestamp
  let intermediate_image := resolved_intermediate_image info a container_id timestamp
  let bind_mounts := extract_bind_mounts info.mounts
  if bind_mounts.isEmpty then ([], .error .noBindMounts)
  else
    if ¬ w.commit_ok intermediate_image then
      ([Event.commit container_id intermediate_image []], .error (.engineOpFailed "commit"))
    else
      let pre₁ := [Event.commit container_id intermediate_image [], Event.mkdtemp temp_dir]
      match copy_bind_mounts_to_tmp w bind_mounts temp_dir with
      | (evc, .error e) => (pre₁ ++ evc, .error e)
      | (evc, .ok copies) =>
        let name := temp_container_name info container_id timestamp
        let pre₂ := pre₁ ++ evc ++ [Event.run_container intermediate_image name]
        if ¬ w.run_ok then (pre₂, .error (.engineOpFailed "run"))
        else
          let teardown := Event.stop_container name :: Event.rm_container name ::
              (if a.keep_temp then [] else [Event.rm_temp_dir temp_dir])
          match restore_and_commit w name copies info.config output_image with
          | (evt, .error e) => (pre₂ ++ evt ++ teardown, .error e)
          | (evt, .ok _) =>
            let post := if a.keep_intermediate then [] else [Event.rmi intermediate_image]
            (pre₂ ++ evt ++ teardown ++ post,
             .ok { container_id := container_id, final_image := output_image,
                   intermediate_image := intermediate_image, temp_dir := temp_dir,
                   copied_mounts := copies })

/-! ### Claim-side definitions -/

/-- Modelled from the claim wording of C10: a name with its single leading
`/` character stripped (the inspected `Name` is reported as `/<name>`). -/
def strip_one_slash (s : String) : String :=
  match s.data with
  | c :: rest => if c = '/' then String.mk rest else s
  | [] => s

/-- The per-`CopySpec` operation sequence the specification prescribes for
the restore step: remove the destination (a failure only warns), make the
parent directory, copy the staged host path to the parent. -/
def restore_ops_spec (w : World) (temp_container : String) (spec : CopySpec) : List Event :=
  Event.exec_rm temp_container (as_posix spec.destination) ::
    ((if w.exec_rm_ok (as_posix spec.destination) then [] else [Event.warn])
      ++ [Event.exec_mkdir temp_container (as_posix (restore_parent spec.destination)),
          Event.cp_in temp_container spec.host_path (as_posix (restore_parent spec.destination))])

/-! ### Helper lemmas -/

/-- Events that the staging and `try` phases can emit: host-side mount
copies, in-container execs, warnings, in-container copies and commits.
Teardown events (`stop`, `rm`, temp-dir removal, `rmi`) are not among
them. -/
def transient_event : Event → Bool
  | .copy_mount _ _ => true
  | .exec_rm _ _ => true
  | .warn => true
  | .exec_mkdir _ _ => true
  | .cp_in _ _ _ => true
  | .commit _ _ _ => true
  | _ => false

/-! ### Concrete instances used by witnesses and counterexamples -/

/-- A world in which every external operation succeeds. -/
def w_all : World :=
  { source_exists := fun _ => true, commit_ok := fun _ => true, run_ok := true
    exec_rm_ok := fun _ => true, exec_mkdir_ok := fun _ => true, cp_ok := fun _ => true }

/-- Keyword arguments left at their defaults. -/
def args_default : Args :=
  { output_image := none, intermediate_image := none, keep_temp := false, keep_intermediate := false }

/-- An inspected container whose only mount is an engine-managed volume. -/
def info_no_binds : InspectInfo :=
  { name := some "/myapp"
    mounts := [{ type := "volume", source := "/var/lib/docker/volumes/v1/_data", destination := "/data" }]
    config := { entrypoint := none, cmd := none, workingDir := none, user := none } }

/-- A single bind mount of `/host/proj` at `/workspace`. -/
def mount_ws : BindMount :=
  { source := py_path "/host/proj", destination := py_path "/workspace" }

/-- A concrete staging directory. -/
def td_ex : PyPath := py_path "/tmp/devc_stage"

/-- The `CopySpec` staging `mount_ws` under `td_ex`. -/
def spec_ws : CopySpec :=
  { destination := py_path "/workspace"
    host_path := { absolute := true, segments := ["tmp", "devc_stage", "workspace"] } }

/-- The staging copy event for `mount_ws` under `td_ex`. -/
def ev_ws : Event :=
  Event.copy_mount (py_path "/host/proj")
    { absolute := true, segments := ["tmp", "devc_stage", "workspace"] }

/-- An inspected container named `My App!` (no entrypoint, cmd, workdir or
user; no mounts — naming does not depend on them). -/
def info_named : InspectInfo :=
  { name := some "My App!", mounts := []
    config := { entrypoint := none, cmd := none, workingDir := none, user := none } }

/-- An inspected container whose reported name is just `/`. -/
def info_slash : InspectInfo :=
  { name := some "/", mounts := []
    config := { entrypoint := none, cmd := none, workingDir := none, user := none } }

/-- A two-mount list whose second mount has destination `/`. -/
def mounts_c3 : List BindMount :=
  [mount_ws, { source := py_path "/host/b", destination := py_path "/" }]

/-- An inspected container with a single bind mount `/host/proj` at
`/workspace`, entrypoint `/bin/bash` and workdir `/workspace`. -/
def info_ws : InspectInfo :=
  { name := some "/myapp"
    mounts := [{ type := "bind", source := "/host/proj", destination := "/workspace" }]
    config := { entrypoint := some ["/bin/bash"], cmd := none
                workingDir := some "/workspace", user := none } }

/-- A world in which every bind-mount source is missing from the host. -/
def w_src_missing : World := { w_all with source_exists := fun _ => false }

/-- A world in which only the final commit (to the default final tag of
`info_ws`) fails. -/
def w_final_fails : World :=
  { w_all with commit_ok := fun t => t ≠ "devc_to_docker/myapp:20240101120000" }


/-! ### Helper theorems -/

/-- Every event emitted by the staging phase is transient. -/
theorem copy_trace_transient (w : World) (mounts : List BindMount) (temp_dir : PyPath) :
    ∀ ev ∈ (copy_bind_mounts_to_tmp w mounts temp_dir).1, transient_event ev = true := by
  induction mounts with
  | nil => simp [copy_bind_mounts_to_tmp]
  | cons m rest ih =>
    simp only [copy_bind_mounts_to_tmp]
    by_cases hsrc : w.source_exists m.source
    · by_cases hroot : m.destination.absolute && m.destination.segments.isEmpty
      · simp [hsrc, hroot]
      · rcases hcall : copy_bind_mounts_to_tmp w rest temp_dir with ⟨evs, res⟩
        rw [hcall] at ih
        simp only [hsrc, hroot, hcall, not_true_eq_false, Bool.false_eq_true, if_false, ite_false]
        intro ev hev
        rcases List.mem_cons.mp hev with h | h
        · subst h; rfl
        · exact ih ev h
    · simp [hsrc]

/-- Every event emitted by the restore phase is transient. -/
theorem restore_trace_transient (w : World) (c : String) (specs : List CopySpec) :
    ∀ ev ∈ (restore_bind_mounts w c specs).1, transient_event ev = true := by
  induction specs with
  | nil => simp [restore_bind_mounts]
  | cons spec rest ih =>
    simp only [restore_bind_mounts]
    by_cases hmk : w.exec_mkdir_ok (as_posix (restore_parent spec.destination))
    · by_cases hcp : w.cp_ok spec.host_path
      · rcases hcall : restore_bind_mounts w c rest with ⟨evs, res⟩
        rw [hcall] at ih
        simp only [hmk, hcp, hcall, not_true_eq_false, if_false, ite_false]
        intro ev hev
        rcases List.mem_cons.mp hev with h | h
        · subst h; rfl
        · rcases List.mem_append.mp h with h | h
          · rcases List.mem_append.mp h with h | h
            · split at h <;> simp_all [transient_event]
            · rcases List.mem_cons.mp h with h | h
              · subst h; rfl
              · rcases List.mem_cons.mp h with h | h
                · subst h; rfl
                · simp at h
          · exact ih ev h
      · simp only [hmk, hcp, not_true_eq_false, not_false_eq_true, if_false, ite_false, ite_true]
        intro ev hev
        rcases List.mem_cons.mp hev with h | h
        · subst h; rfl
        · rcases List.mem_append.mp h with h | h
          · split at h <;> simp_all [transient_event]
          · rcases List.mem_cons.mp h with h | h
            · subst h; rfl
            · rcases List.mem_cons.mp h with h | h
              · subst h; rfl
              · simp at h
    · simp only [hmk, not_false_eq_true, ite_true]
      intro ev hev
      rcases List.mem_cons.mp hev with h | h
      · subst h; rfl
      · rcases List.mem_append.mp h with h | h
        · split at h <;> simp_all [transient_event]
        · rcases List.mem_cons.mp h with h | h
          · subst h; rfl
          · simp at h

/-- Every event emitted by the `try` body is transient. -/
theorem rac_trace_transient (w : World) (c : String) (copies : List CopySpec)
    (config : DockerConfig) (out : String) :
    ∀ ev ∈ (restore_and_commit w c copies config out).1, transient_event ev = true := by
  intro ev hev
  simp only [restore_and_commit] at hev
  rcases hcall : restore_bind_mounts w c copies with ⟨evs, res⟩
  rw [hcall] at hev
  have hrest := restore_trace_transient w c copies
  rw [hcall] at hrest
  rcases res with e | u
  · exact hrest ev hev
  · have hev' : ev ∈ evs ++ [Event.commit c out (build_commit_changes config)] := by
      by_cases hc : w.commit_ok out <;>
        simp only [hc, not_true_eq_false, not_false_eq_true, if_false, ite_true, ite_false] at hev <;>
        exact hev
    rcases List.mem_append.mp hev' with h | h
    · exact hrest ev h
    · rcases List.mem_cons.mp h with h | h
      · subst h; rfl
      · simp at h

/-- An event of a non-transient kind does not occur in a trace of transient
events. -/
theorem not_mem_of_not_transient {l : List Event} (hall : ∀ ev ∈ l, transient_event ev = true)
    {ev : Event} (hev : transient_event ev = false) : ev ∉ l := by
  intro h
  rw [hall ev h] at hev
  exact absurd hev (by simp)

/-- Staging a list of mounts whose first part stages successfully processes
the first part exactly as alone, then continues with the remainder. -/
theorem copy_append (w : World) (pre rest : List BindMount) (td : PyPath)
    (evp : List Event) (cps : List CopySpec)
    (h : copy_bind_mounts_to_tmp w pre td = (evp, .ok cps)) :
    copy_bind_mounts_to_tmp w (pre ++ rest) td =
      (evp ++ (copy_bind_mounts_to_tmp w rest td).1,
        (copy_bind_mounts_to_tmp w rest td).2.map (fun l => cps ++ l)) := by
  induction pre generalizing evp cps with
  | nil =>
    simp only [copy_bind_mounts_to_tmp] at h
    rw [Prod.mk.injEq] at h
    obtain ⟨h1, h2⟩ := h
    subst h1
    rcases hR : copy_bind_mounts_to_tmp w rest td with ⟨R1, R2⟩
    rcases R2 with e | l <;> simp_all [Except.map]
  | cons m pre ih =>
    simp only [copy_bind_mounts_to_tmp, List.cons_append, List.append_eq] at h ⊢
    by_cases hsrc : w.source_exists m.source
    · by_cases hroot : m.destination.absolute && m.destination.segments.isEmpty
      · simp [hsrc, hroot] at h
      · simp only [hsrc, hroot, not_true_eq_false, Bool.false_eq_true, if_false, ite_false] at h ⊢
        rcases hcall : copy_bind_mounts_to_tmp w pre td with ⟨evs, res⟩
        rw [hcall] at h
        rcases res with e | cps' <;> rw [Prod.mk.injEq] at h <;> obtain ⟨h1, h2⟩ := h
        · simp [Except.map] at h2
        · simp only [Except.map, Except.ok.injEq] at h2
          subst h1
          subst h2
          rw [ih evs cps' hcall]
          rcases hR : copy_bind_mounts_to_tmp w rest td with ⟨R1, R2⟩
          rcases R2 with e | l <;> simp [Except.map]
    · simp [hsrc] at h

/-- Restoring a list of specs whose first part restores successfully
processes the first part exactly as alone, then continues with the
remainder. -/
theorem restore_append (w : World) (c : String) (pre rest : List CopySpec) (evp : List Event)
    (h : restore_bind_mounts w c pre = (evp, .ok ())) :
    restore_bind_mounts w c (pre ++ rest) =
      (evp ++ (restore_bind_mounts w c rest).1, (restore_bind_mounts w c rest).2) := by
  induction pre generalizing evp with
  | nil =>
    simp only [restore_bind_mounts] at h
    rw [Prod.mk.injEq] at h
    obtain ⟨h1, _⟩ := h
    subst h1
    simp
  | cons spec pre ih =>
    simp only [restore_bind_mounts, List.cons_append, List.append_eq] at h ⊢
    by_cases hmk : w.exec_mkdir_ok (as_posix (restore_parent spec.destination))
    · by_cases hcp : w.cp_ok spec.host_path
      · simp only [hmk, hcp, not_true_eq_false, if_false, ite_false] at h ⊢
        rcases hcall : restore_bind_mounts w c pre with ⟨evs, res⟩
        rw [hcall] at h
        rcases res with e | u <;> rw [Prod.mk.injEq] at h <;> obtain ⟨h1, h2⟩ := h
        · exact absurd h2 (by simp)
        · subst h1
          rw [ih evs hcall]
          simp
      · simp [hmk, hcp] at h
    · simp [hmk] at h

/-- When every spec's parent creation and copy succeed, the restore phase
succeeds and its trace is exactly the specification's per-spec operation
sequences, in spec order. -/
theorem restore_all_ok (w : World) (c : String) (specs : List CopySpec)
    (h : ∀ spec ∈ specs, w.exec_mkdir_ok (as_posix (restore_parent spec.destination)) = true
      ∧ w.cp_ok spec.host_path = true) :
    restore_bind_mounts w c specs = (specs.flatMap (restore_ops_spec w c), .ok ()) := by
  induction specs with
  | nil => simp [restore_bind_mounts]
  | cons spec rest ih =>
    obtain ⟨hmk, hcp⟩ := h spec (List.mem_cons_self spec rest)
    have hrest := ih (fun s hs => h s (List.mem_cons_of_mem spec hs))
    simp only [restore_bind_mounts, hmk, hcp, hrest, not_true_eq_false, if_false, ite_false]
    simp [restore_ops_spec]

/-- Characters surviving the strip step were already in the list. -/
theorem mem_py_strip_list {c : Char} {l : List Char} (h : c ∈ py_strip_list l) : c ∈ l := by
  unfold py_strip_list at h
  rw [List.mem_reverse] at h
  have h2 := (List.dropWhile_suffix strip_set).subset h
  rw [List.mem_reverse] at h2
  exact (List.dropWhile_suffix strip_set).subset h2

/-- Every character of a sanitised name lies in `[a-zA-Z0-9_.-]`. -/
theorem sanitize_name_chars_allowed (name : String) :
    (sanitize_name name).data.all allowed_char = true := by
  unfold sanitize_name
  cases hs : (py_strip_list (name.data.map (fun c => if allowed_char c then c else '-'))).isEmpty
  · simp only [hs, Bool.false_eq_true, if_false, ite_false]
    refine List.all_eq_true.mpr ?_
    intro c hc
    have hmem := mem_py_strip_list (l := name.data.map (fun c => if allowed_char c then c else '-')) hc
    obtain ⟨a, _, ha⟩ := List.mem_map.mp hmem
    by_cases hall : allowed_char a = true
    · have hca : c = a := by rw [← ha, if_pos hall]
      rw [hca]
      exact hall
    · have hca : c = '-' := by rw [← ha, if_neg hall]
      rw [hca]
      decide
  · simp only [hs, if_true, ite_true]
    decide

/-- A sanitised name is never empty (the fallback is `"container"`). -/
theorem sanitize_name_ne_empty (name : String) : sanitize_name name ≠ "" := by
  unfold sanitize_name
  cases hs : (py_strip_list (name.data.map (fun c => if allowed_char c then c else '-'))).isEmpty
  · simp only [hs, Bool.false_eq_true, if_false, ite_false]
    intro h
    have h2 : py_strip_list (name.data.map (fun c => if allowed_char c then c else '-')) = [] :=
      congrArg String.data h
    rw [h2] at hs
    simp at hs
  · simp only [hs, if_true, ite_true]
    decide

/-- A name whose single leading slash strips to nothing also strips to
nothing under `lstrip`. -/
theorem strip_one_slash_drop (s : String) (h : strip_one_slash s = "") :
    s.data.dropWhile (fun c => c = '/') = [] := by
  obtain ⟨l⟩ := s
  rcases l with _ | ⟨c, rest⟩
  · rfl
  · have h' : (if c = '/' then String.mk rest else String.mk (c :: rest)) = "" := h
    by_cases hc : c = '/'
    · rw [if_pos hc] at h'
      have hrest : rest = [] := congrArg String.data h'
      subst hc
      subst hrest
      decide
    · rw [if_neg hc] at h'
      have hcon : (c :: rest) = ([] : List Char) := congrArg String.data h'
      simp at hcon

/-! ### Claim theorems -/

/-- Claim C4 (code bug): the Mount Extractor is meant to exclude every entry
whose `Source` is empty or absent, but the code's `if not source: continue`
tests the truthiness of a `pathlib.Path`, which is always truthy, so a
`"bind"` entry with an empty `Source` is kept (as `Path("")`, i.e. `.`)
instead of being excluded. -/
theorem c4_extract_empty_source_kept :
    extract_bind_mounts [{ type := "bind", source := "", destination := "/workspace" }] ≠ [] ∧
    extract_bind_mounts [{ type := "bind", source := "", destination := "/workspace" }] =
      [{ source := py_path "", destination := py_path "/workspace" }] := by
  decide

/-- Claim C5: when the extracted bind-mount sequence is empty the pipeline
fails with `noBindMounts` having issued no engine or filesystem operation at
all — no commit, no temp directory, no disposable container, no copy. -/
theorem c5_no_bind_mounts (w : World) (container_id : String) (info : InspectInfo) (a : Args)
    (timestamp : String) (temp_dir : PyPath)
    (h : extract_bind_mounts info.mounts = []) :
    devc_to_docker w container_id info a timestamp temp_dir = ([], .error .noBindMounts) := by
  simp [devc_to_docker, h]

theorem c5_no_bind_mounts_witness :
    devc_to_docker w_all "abc123" info_no_binds args_default "20240101120000" td_ex =
      ([], .error .noBindMounts) :=
  c5_no_bind_mounts w_all "abc123" info_no_binds args_default "20240101120000" td_ex (by decide)

/-- Claim C9: when staging succeeds it produces exactly one `CopySpec` per
`BindMount`, in mount order, whose destination is the mount's destination
and whose host path is the temp directory extended by the destination's
segments (the leading root marker stripped) — in particular the temp
directory's segments are a prefix of every staged host path. -/
theorem c9_copy_spec_invariant (w : World) (mounts : List BindMount) (temp_dir : PyPath)
    (evc : List Event) (copies : List CopySpec)
    (h : copy_bind_mounts_to_tmp w mounts temp_dir = (evc, .ok copies)) :
    copies.length = mounts.length ∧
    List.Forall₂ (fun (m : BindMount) (spec : CopySpec) =>
      spec.destination = m.destination ∧
      spec.host_path.absolute = temp_dir.absolute ∧
      spec.host_path.segments = temp_dir.segments ++ m.destination.segments) mounts copies := by
  suffices hf : List.Forall₂ (fun (m : BindMount) (spec : CopySpec) =>
      spec.destination = m.destination ∧
      spec.host_path.absolute = temp_dir.absolute ∧
      spec.host_path.segments = temp_dir.segments ++ m.destination.segments) mounts copies by
    exact ⟨hf.length_eq.symm, hf⟩
  induction mounts generalizing evc copies with
  | nil =>
    simp only [copy_bind_mounts_to_tmp] at h
    rw [Prod.mk.injEq] at h
    obtain ⟨h1, h2⟩ := h
    simp only [Except.ok.injEq] at h2
    subst h2
    exact List.Forall₂.nil
  | cons m rest ih =>
    simp only [copy_bind_mounts_to_tmp] at h
    by_cases hsrc : w.source_exists m.source
    · by_cases hroot : m.destination.absolute && m.destination.segments.isEmpty
      · simp [hsrc, hroot] at h
      · simp only [hsrc, hroot, not_true_eq_false, Bool.false_eq_true, if_false, ite_false] at h
        rcases hcall : copy_bind_mounts_to_tmp w rest temp_dir with ⟨evs, res⟩
        rw [hcall] at h
        rcases res with e | cps' <;> rw [Prod.mk.injEq] at h <;> obtain ⟨h1, h2⟩ := h
        · simp [Except.map] at h2
        · simp only [Except.map, Except.ok.injEq] at h2
          subst h2
          refine List.Forall₂.cons ⟨rfl, ?_, ?_⟩ (ih evs cps' hcall) <;>
            cases hab : m.destination.absolute <;> simp [py_join, hab]
    · simp [hsrc] at h

/-- Claim C7: the Metadata Translator emits, in this fixed order, an
entrypoint directive (explicit `ENTRYPOINT []` when unset or empty), a
command directive (explicit `CMD []` likewise), then `WORKDIR` only when a
working directory is set and `USER` only when a user is set; the config
with no entrypoint, no cmd, workdir `/app` and no user yields exactly
`ENTRYPOINT []`, `CMD []`, `WORKDIR /app`. -/
theorem c7_commit_changes_order (config : DockerConfig) :
    build_commit_changes config =
      (if truthy_list config.entrypoint then "ENTRYPOINT " ++ json_dumps (config.entrypoint.getD [])
        else "ENTRYPOINT []") ::
      (if truthy_list config.cmd then "CMD " ++ json_dumps (config.cmd.getD []) else "CMD []") ::
      ((if truthy_str config.workingDir then ["WORKDIR " ++ config.workingDir.getD ""] else [])
        ++ (if truthy_str config.user then ["USER " ++ config.user.getD ""] else []))
    ∧ build_commit_changes
        { entrypoint := none, cmd := none, workingDir := some "/app", user := none } =
      ["ENTRYPOINT []", "CMD []", "WORKDIR /app"] := by
  constructor
  · cases h1 : truthy_list config.entrypoint <;> cases h2 : truthy_list config.cmd <;>
      simp [build_commit_changes, h1, h2]
  · decide

/-- Claim C8: with no tags supplied, the final tag is
`devc_to_docker/<slug>:<timestamp>` and the intermediate tag appends
`-stage`; the slug only ever contains `[a-zA-Z0-9_.-]` and is never empty;
name `My App!` sanitises to `My-App` and, with timestamp
`20240101120000`, yields the documented default tags. -/
theorem c8_naming_policy (info : InspectInfo) (a : Args) (container_id timestamp : String)
    (hout : a.output_image = none) (hint : a.intermediate_image = none) :
    resolved_output_image info a container_id timestamp =
        "devc_to_docker/" ++ sanitize_name (container_name_of info.name container_id)
          ++ ":" ++ timestamp
    ∧ resolved_intermediate_image info a container_id timestamp =
        resolved_output_image info a container_id timestamp ++ "-stage"
    ∧ (∀ name, (sanitize_name name).data.all allowed_char = true ∧ sanitize_name name ≠ "")
    ∧ sanitize_name "My App!" = "My-App"
    ∧ (info.name = some "My App!" → timestamp = "20240101120000" →
        resolved_output_image info a container_id timestamp =
            "devc_to_docker/My-App:20240101120000"
        ∧ resolved_intermediate_image info a container_id timestamp =
            "devc_to_docker/My-App:20240101120000-stage") := by
  have hcn : ∀ h : info.name = some "My App!",
      container_name_of info.name container_id = "My App!" := by
    intro h
    rw [h]
    rfl
  refine ⟨?_, ?_, ?_, ?_, ?_⟩
  · simp [resolved_output_image, hout, default_output_image]
  · simp [resolved_intermediate_image, hint]
  · exact fun name => ⟨sanitize_name_chars_allowed name, sanitize_name_ne_empty name⟩
  · decide
  · intro hname hts
    subst hts
    constructor
    · simp only [resolved_output_image, hout, Option.getD_none, default_output_image, hcn hname]
      decide
    · simp only [resolved_intermediate_image, hint, Option.getD_none, resolved_output_image, hout,
        default_output_image, hcn hname]
      decide

theorem c8_naming_policy_witness :
    resolved_output_image info_named args_default "abc123" "20240101120000" =
        "devc_to_docker/My-App:20240101120000"
    ∧ resolved_intermediate_image info_named args_default "abc123" "20240101120000" =
        "devc_to_docker/My-App:20240101120000-stage" := by
  obtain ⟨h1, h2, h3, h4, h5⟩ := c8_naming_policy info_named args_default "abc123" "20240101120000" rfl rfl
  exact h5 rfl rfl

/-- Claim C10: when the inspected `Name` is absent, or empty after the
leading `/` is stripped, the name used for slugging falls back to the
`container_id` argument, so the default tag and the disposable container's
name are derived from `container_id`. -/
theorem c10_name_fallback (info : InspectInfo) (container_id timestamp : String)
    (h : info.name = none ∨ ∃ s, info.name = some s ∧ strip_one_slash s = "") :
    container_name_of info.name container_id = container_id
    ∧ default_output_image info container_id timestamp =
        "devc_to_docker/" ++ sanitize_name container_id ++ ":" ++ timestamp
    ∧ temp_container_name info container_id timestamp =
        (if ("devc-to-docker-" ++ sanitize_name container_id ++ "-" ++ timestamp).length > 60
         then String.mk (("devc-to-docker-" ++ sanitize_name container_id ++ "-" ++ timestamp).data.take 60)
         else "devc-to-docker-" ++ sanitize_name container_id ++ "-" ++ timestamp) := by
  have hcn : container_name_of info.name container_id = container_id := by
    rcases h with h | ⟨s, hs, hstrip⟩
    · rw [h]
      rfl
    · rw [hs]
      unfold container_name_of
      simp only [Option.getD_some]
      rw [strip_one_slash_drop s hstrip]
      rfl
  refine ⟨hcn, ?_, ?_⟩
  · simp [default_output_image, hcn]
  · simp [temp_container_name, hcn]

theorem c10_name_fallback_witness :
    container_name_of info_slash.name "abc123" = "abc123"
    ∧ default_output_image info_slash "abc123" "20240101120000" =
        "devc_to_docker/abc123:20240101120000" := by
  obtain ⟨h1, h2, _⟩ :=
    c10_name_fallback info_slash "abc123" "20240101120000" (Or.inr ⟨"/", rfl, by decide⟩)
  refine ⟨h1, ?_⟩
  rw [h2]
  decide

theorem c9_copy_spec_invariant_witness :
    ([spec_ws].length = [mount_ws].length) ∧
    List.Forall₂ (fun (m : BindMount) (spec : CopySpec) =>
      spec.destination = m.destination ∧
      spec.host_path.absolute = td_ex.absolute ∧
      spec.host_path.segments = td_ex.segments ++ m.destination.segments) [mount_ws] [spec_ws] :=
  c9_copy_spec_invariant w_all [mount_ws] td_ex [ev_ws] [spec_ws] (by decide)

/-- Claim C6: for each `CopySpec`, in spec order, the restore step first
removes pre-existing content at the destination (failure is a warning and
does not abort), then creates the destination's parent (failure is fatal
`restoreFailed`, and the spec's copy and all later specs are not
attempted), then copies the staged host path to the parent. -/
theorem c6_restore_order_and_severity (w : World) (c : String) (specs : List CopySpec) :
    ((∀ spec ∈ specs, w.exec_mkdir_ok (as_posix (restore_parent spec.destination)) = true
        ∧ w.cp_ok spec.host_path = true) →
      restore_bind_mounts w c specs = (specs.flatMap (restore_ops_spec w c), .ok ()))
    ∧ (∀ pre spec suf, specs = pre ++ spec :: suf →
        (∀ s ∈ pre, w.exec_mkdir_ok (as_posix (restore_parent s.destination)) = true
          ∧ w.cp_ok s.host_path = true) →
        w.exec_mkdir_ok (as_posix (restore_parent spec.destination)) = false →
        restore_bind_mounts w c specs =
          (pre.flatMap (restore_ops_spec w c)
            ++ Event.exec_rm c (as_posix spec.destination)
              :: ((if w.exec_rm_ok (as_posix spec.destination) then [] else [Event.warn])
                ++ [Event.exec_mkdir c (as_posix (restore_parent spec.destination))]),
            .error (.restoreFailed (as_posix (restore_parent spec.destination))))) := by
  constructor
  · exact restore_all_ok w c specs
  · intro pre spec suf hsp hpre hmk
    subst hsp
    rw [restore_append w c pre (spec :: suf) (pre.flatMap (restore_ops_spec w c))
      (restore_all_ok w c pre hpre)]
    have hstep : restore_bind_mounts w c (spec :: suf) =
        (Event.exec_rm c (as_posix spec.destination)
          :: ((if w.exec_rm_ok (as_posix spec.destination) then [] else [Event.warn])
            ++ [Event.exec_mkdir c (as_posix (restore_parent spec.destination))]),
          .error (.restoreFailed (as_posix (restore_parent spec.destination)))) := by
      simp [restore_bind_mounts, hmk]
    rw [hstep]

theorem c6_restore_order_and_severity_witness :
    restore_bind_mounts w_all "tc" [spec_ws] =
      ([spec_ws].flatMap (restore_ops_spec w_all "tc"), .ok ()) :=
  (c6_restore_order_and_severity w_all "tc" [spec_ws]).1 (by decide)

/-- Claim C3 counterexample: with a mount staged before one whose
destination is `/`, the first mount's content is copied before the `/`
destination is rejected, so the rejection does not happen before every
copy of every mount's content. -/
theorem c3_counterexample :
    copy_bind_mounts_to_tmp w_all mounts_c3 td_ex = ([ev_ws], .error .invalidDestination)
    ∧ ev_ws ∈ (copy_bind_mounts_to_tmp w_all mounts_c3 td_ex).1 := by
  decide

/-- Claim C3 (amended): a bind mount with absolute destination `/x/y`
stages at `<temp_dir>/x/y`; a destination `/` is rejected with
`invalidDestination` before that mount's own content is copied, the trace
up to the rejection being exactly the copies of the preceding mounts. -/
theorem c3_amended_staging (w : World) (td : PyPath) (pre suf : List BindMount) (m : BindMount)
    (evp : List Event) (cps : List CopySpec)
    (hpre : copy_bind_mounts_to_tmp w pre td = (evp, .ok cps))
    (hsrc : w.source_exists m.source = true) :
    (m.destination = { absolute := true, segments := [] } →
      copy_bind_mounts_to_tmp w (pre ++ m :: suf) td = (evp, .error .invalidDestination))
    ∧ (∀ x y, m.destination = { absolute := true, segments := [x, y] } →
      copy_bind_mounts_to_tmp w [m] td =
        ([Event.copy_mount m.source { absolute := td.absolute, segments := td.segments ++ [x, y] }],
          .ok [{ destination := m.destination,
                 host_path := { absolute := td.absolute, segments := td.segments ++ [x, y] } }])) := by
  constructor
  · intro hdest
    rw [copy_append w pre (m :: suf) td evp cps hpre]
    have hstep : copy_bind_mounts_to_tmp w (m :: suf) td = ([], .error .invalidDestination) := by
      simp [copy_bind_mounts_to_tmp, hsrc, hdest]
    rw [hstep]
    simp [Except.map]
  · intro x y hdest
    simp [copy_bind_mounts_to_tmp, hsrc, hdest, py_join, Except.map]

theorem c3_amended_staging_witness :
    copy_bind_mounts_to_tmp w_all
        ([mount_ws] ++ [{ source := py_path "/host/b", destination := py_path "/" }]) td_ex =
      ([ev_ws], .error .invalidDestination) :=
  (c3_amended_staging w_all td_ex [mount_ws] []
    { source := py_path "/host/b", destination := py_path "/" } [ev_ws] [spec_ws]
    (by decide) (by decide)).1 (by decide)

/-- Claim C2 counterexample: with the temp directory already created
(`mkdtemp` in the trace) and a fatal `sourceMissing` failure raised during
snapshot staging, the run propagates the error without ever removing the
temp directory, although `keep_temp` was not requested. -/
theorem c2_counterexample :
    (devc_to_docker w_src_missing "abc123" info_ws args_default "20240101120000" td_ex).2 =
        .error (.sourceMissing (py_path "/host/proj"))
    ∧ Event.mkdtemp td_ex ∈
        (devc_to_docker w_src_missing "abc123" info_ws args_default "20240101120000" td_ex).1
    ∧ args_default.keep_temp = false
    ∧ Event.rm_temp_dir td_ex ∉
        (devc_to_docker w_src_missing "abc123" info_ws args_default "20240101120000" td_ex).1 := by
  decide

/-- Claim C2 (amended): the teardown block only wraps the restore,
metadata-translation and final-commit phase.  A fatal failure during
snapshot staging, or when starting the disposable container, propagates
after the temp directory was created but without removing it (and without
stopping or removing anything): the trace ends at the failing operation
and contains no `rm_temp_dir` event. -/
theorem c2_amended_teardown_scope (w : World) (container_id : String) (info : InspectInfo)
    (a : Args) (timestamp : String) (temp_dir : PyPath)
    (hmounts : extract_bind_mounts info.mounts ≠ [])
    (hcommit : w.commit_ok (resolved_intermediate_image info a container_id timestamp) = true) :
    (∀ evc e,
      copy_bind_mounts_to_tmp w (extract_bind_mounts info.mounts) temp_dir = (evc, .error e) →
      devc_to_docker w container_id info a timestamp temp_dir =
          (Event.commit container_id (resolved_intermediate_image info a container_id timestamp) []
            :: Event.mkdtemp temp_dir :: evc, .error e)
        ∧ Event.rm_temp_dir temp_dir ∉ (devc_to_docker w container_id info a timestamp temp_dir).1)
    ∧ (∀ evc copies,
      copy_bind_mounts_to_tmp w (extract_bind_mounts info.mounts) temp_dir = (evc, .ok copies) →
      w.run_ok = false →
      devc_to_docker w container_id info a timestamp temp_dir =
          (Event.commit container_id (resolved_intermediate_image info a container_id timestamp) []
            :: Event.mkdtemp temp_dir
            :: (evc ++ [Event.run_container (resolved_intermediate_image info a container_id timestamp)
                  (temp_container_name info container_id timestamp)]),
            .error (.engineOpFailed "run"))
        ∧ Event.rm_temp_dir temp_dir ∉ (devc_to_docker w container_id info a timestamp temp_dir).1) := by
  have hmB : (extract_bind_mounts info.mounts).isEmpty = false := by
    cases hE : (extract_bind_mounts info.mounts).isEmpty
    · rfl
    · exact absurd (List.isEmpty_iff.mp hE) hmounts
  constructor
  · intro evc e hcopy
    have hevc : Event.rm_temp_dir temp_dir ∉ evc := by
      have h := copy_trace_transient w (extract_bind_mounts info.mounts) temp_dir
      rw [hcopy] at h
      exact not_mem_of_not_transient h rfl
    have heq : devc_to_docker w container_id info a timestamp temp_dir =
        (Event.commit container_id (resolved_intermediate_image info a container_id timestamp) []
          :: Event.mkdtemp temp_dir :: evc, .error e) := by
      simp [devc_to_docker, hmB, hcommit, hcopy]
    refine ⟨heq, ?_⟩
    rw [heq]
    simp [List.mem_cons, hevc]
  · intro evc copies hcopy hrun
    have hevc : Event.rm_temp_dir temp_dir ∉ evc := by
      have h := copy_trace_transient w (extract_bind_mounts info.mounts) temp_dir
      rw [hcopy] at h
      exact not_mem_of_not_transient h rfl
    have heq : devc_to_docker w container_id info a timestamp temp_dir =
        (Event.commit container_id (resolved_intermediate_image info a container_id timestamp) []
          :: Event.mkdtemp temp_dir
          :: (evc ++ [Event.run_container (resolved_intermediate_image info a container_id timestamp)
                (temp_container_name info container_id timestamp)]),
          .error (.engineOpFailed "run")) := by
      simp [devc_to_docker, hmB, hcommit, hcopy, hrun]
    refine ⟨heq, ?_⟩
    rw [heq]
    simp [List.mem_cons, List.mem_append, hevc]

theorem c2_amended_teardown_scope_witness :
    devc_to_docker w_src_missing "abc123" info_ws args_default "20240101120000" td_ex =
        (Event.commit "abc123"
            (resolved_intermediate_image info_ws args_default "abc123" "20240101120000") []
          :: Event.mkdtemp td_ex :: [], .error (.sourceMissing (py_path "/host/proj")))
    ∧ Event.rm_temp_dir td_ex ∉
        (devc_to_docker w_src_missing "abc123" info_ws args_default "20240101120000" td_ex).1 :=
  (c2_amended_teardown_scope w_src_missing "abc123" info_ws args_default "20240101120000" td_ex
    (by decide) (by decide)).1 [] (.sourceMissing (py_path "/host/proj")) (by decide)

/-- Claim C1: once the disposable container has been run, any fatal failure
inside the restore / metadata-translation / final-commit phase still runs
the teardown: the disposable container is stopped and removed, the temp
directory is removed exactly when `keep_temp` is false, and no `rmi` of the
intermediate image is issued; the `rmi` happens precisely on the fully
successful path with `keep_intermediate` false. -/
theorem c1_teardown_on_failure (w : World) (container_id : String) (info : InspectInfo)
    (a : Args) (timestamp : String) (temp_dir : PyPath) (evc : List Event) (copies : List CopySpec)
    (hmounts : extract_bind_mounts info.mounts ≠ [])
    (hcommit : w.commit_ok (resolved_intermediate_image info a container_id timestamp) = true)
    (hcopy : copy_bind_mounts_to_tmp w (extract_bind_mounts info.mounts) temp_dir = (evc, .ok copies))
    (hrun : w.run_ok = true) :
    ((∃ e, (devc_to_docker w container_id info a timestamp temp_dir).2 = .error e) →
      Event.stop_container (temp_container_name info container_id timestamp) ∈
          (devc_to_docker w container_id info a timestamp temp_dir).1
      ∧ Event.rm_container (temp_container_name info container_id timestamp) ∈
          (devc_to_docker w container_id info a timestamp temp_dir).1
      ∧ (a.keep_temp = false → Event.rm_temp_dir temp_dir ∈
          (devc_to_docker w container_id info a timestamp temp_dir).1)
      ∧ (a.keep_temp = true → Event.rm_temp_dir temp_dir ∉
          (devc_to_docker w container_id info a timestamp temp_dir).1)
      ∧ Event.rmi (resolved_intermediate_image info a container_id timestamp) ∉
          (devc_to_docker w container_id info a timestamp temp_dir).1)
    ∧ (Event.rmi (resolved_intermediate_image info a container_id timestamp) ∈
          (devc_to_docker w container_id info a timestamp temp_dir).1 ↔
        (∃ r, (devc_to_docker w container_id info a timestamp temp_dir).2 = .ok r)
          ∧ a.keep_intermediate = false) := by
  have hmB : (extract_bind_mounts info.mounts).isEmpty = false := by
    cases hE : (extract_bind_mounts info.mounts).isEmpty
    · rfl
    · exact absurd (List.isEmpty_iff.mp hE) hmounts
  have hevc_t := copy_trace_transient w (extract_bind_mounts info.mounts) temp_dir
  rw [hcopy] at hevc_t
  have hrmi_evc : Event.rmi (resolved_intermediate_image info a container_id timestamp) ∉ evc :=
    not_mem_of_not_transient hevc_t rfl
  have hrtd_evc : Event.rm_temp_dir temp_dir ∉ evc := not_mem_of_not_transient hevc_t rfl
  rcases htry : restore_and_commit w (temp_container_name info container_id timestamp) copies
      info.config (resolved_output_image info a container_id timestamp) with ⟨evt, tryRes⟩
  have hevt_t := rac_trace_transient w (temp_container_name info container_id timestamp) copies
      info.config (resolved_output_image info a container_id timestamp)
  rw [htry] at hevt_t
  have hrmi_evt : Event.rmi (resolved_intermediate_image info a container_id timestamp) ∉ evt :=
    not_mem_of_not_transient hevt_t rfl
  have hrtd_evt : Event.rm_temp_dir temp_dir ∉ evt := not_mem_of_not_transient hevt_t rfl
  rcases tryRes with e | u
  · have heq : devc_to_docker w container_id info a timestamp temp_dir =
        (Event.commit container_id (resolved_intermediate_image info a container_id timestamp) []
          :: Event.mkdtemp temp_dir
          :: (evc ++ Event.run_container (resolved_intermediate_image info a container_id timestamp)
                (temp_container_name info container_id timestamp)
            :: (evt ++ Event.stop_container (temp_container_name info container_id timestamp)
              :: Event.rm_container (temp_container_name info container_id timestamp)
              :: (if a.keep_temp then [] else [Event.rm_temp_dir temp_dir]))), .error e) := by
      simp [devc_to_docker, hmB, hcommit, hcopy, hrun, htry]
    constructor
    · intro _
      refine ⟨?_, ?_, ?_, ?_, ?_⟩
      · rw [heq]; simp
      · rw [heq]; simp
      · intro hkt; rw [heq]; simp [hkt]
      · intro hkt; rw [heq]; simp [hkt, hrtd_evc, hrtd_evt]
      · rw [heq]; cases hkt : a.keep_temp <;> simp [hkt, hrmi_evc, hrmi_evt]
    · rw [heq]
      constructor
      · intro hmem
        exfalso
        revert hmem
        cases hkt : a.keep_temp <;> simp [hkt, hrmi_evc, hrmi_evt]
      · rintro ⟨⟨r, hr⟩, _⟩
        simp at hr
  · have heq : devc_to_docker w container_id info a timestamp temp_dir =
        (Event.commit container_id (resolved_intermediate_image info a container_id timestamp) []
          :: Event.mkdtemp temp_dir
          :: (evc ++ Event.run_container (resolved_intermediate_image info a container_id timestamp)
                (temp_container_name info container_id timestamp)
            :: (evt ++ Event.stop_container (temp_container_name info container_id timestamp)
              :: Event.rm_container (temp_container_name info container_id timestamp)
              :: ((if a.keep_temp then [] else [Event.rm_temp_dir temp_dir])
                ++ (if a.keep_intermediate then []
                    else [Event.rmi (resolved_intermediate_image info a container_id timestamp)])))),
          .ok { container_id := container_id
                final_image := resolved_output_image info a container_id timestamp
                intermediate_image := resolved_intermediate_image info a container_id timestamp
                temp_dir := temp_dir
                copied_mounts := copies }) := by
      simp [devc_to_docker, hmB, hcommit, hcopy, hrun, htry]
    constructor
    · rintro ⟨e, he⟩
      rw [heq] at he
      simp at he
    · cases hki : a.keep_intermediate
      · constructor
        · intro _
          exact ⟨⟨_, by rw [heq]⟩, rfl⟩
        · intro _
          rw [heq]
          simp [hki]
      · constructor
        · intro hmem
          exfalso
          revert hmem
          rw [heq]
          cases hkt : a.keep_temp <;> simp [hkt, hki, hrmi_evc, hrmi_evt]
        · rintro ⟨_, hk⟩
          simp [hki] at hk

theorem c1_teardown_on_failure_witness :
    Event.stop_container (temp_container_name info_ws "abc123" "20240101120000") ∈
        (devc_to_docker w_final_fails "abc123" info_ws args_default "20240101120000" td_ex).1
    ∧ Event.rm_container (temp_container_name info_ws "abc123" "20240101120000") ∈
        (devc_to_docker w_final_fails "abc123" info_ws args_default "20240101120000" td_ex).1
    ∧ Event.rm_temp_dir td_ex ∈
        (devc_to_docker w_final_fails "abc123" info_ws args_default "20240101120000" td_ex).1
    ∧ Event.rmi (resolved_intermediate_image info_ws args_default "abc123" "20240101120000") ∉
        (devc_to_docker w_final_fails "abc123" info_ws args_default "20240101120000" td_ex).1 := by
  obtain ⟨h1, h2⟩ := c1_teardown_on_failure w_final_fails "abc123" info_ws args_default
    "20240101120000" td_ex [ev_ws] [spec_ws] (by decide) (by decide) (by decide) rfl
  obtain ⟨ha, hb, hc, hd, he⟩ := h1 ⟨.engineOpFailed "commit", by decide⟩
  exact ⟨ha, hb, hc rfl, he⟩

end DevcToDocker
